import Mathlib

/-!
Shallow embedding of the ntex buffered I/O core: the buffer/flag protocol of
`ReadContext` / `WriteContext` (src/ntex-io/src/tasks.rs), the rustls client
filter (src/ntex-tls/src/rustls/client.rs), and the async-std read/write pump
(src/ntex-rt/src/asyncstd.rs).

Buffers are modelled by their byte length (`Nat`); the shared flag word by a
structure of booleans for the bits these functions touch; side effects
(waker wakes, pool releases, buffer deposits) by an emitted event list, in
source order.
-/

namespace Ntex

/-- Connection flag bits touched by the task-facing contexts
(`Flags` in src/ntex-io/src/io.rs). -/
structure Flags where
  rd_ready : Bool
  rd_buf_full : Bool
  wr_wait : Bool
  wr_backpressure : Bool
  io_filters : Bool
deriving DecidableEq, Repr

/-- Bitwise union of two flag words (`insert_flags` adds bits). -/
def Flags.union (a b : Flags) : Flags :=
  ⟨a.rd_ready || b.rd_ready, a.rd_buf_full || b.rd_buf_full,
   a.wr_wait || b.wr_wait, a.wr_backpressure || b.wr_backpressure,
   a.io_filters || b.io_filters⟩

/-- The bit mask RD_READY. -/
def maskRdReady : Flags := ⟨true, false, false, false, false⟩

/-- The bit mask RD_READY | RD_BUF_FULL. -/
def maskRdReadyFull : Flags := ⟨true, true, false, false, false⟩

/-- Error kinds distinguished by the embedded code paths. -/
inductive ErrKind
  | writeZero
  | timedOut
  | other
deriving DecidableEq, Repr

/-- Observable side effects of the context operations, in program order:
shared-flag stores, dispatcher wakes, pool releases, buffer deposits back
into the shared cell, filter shutdown requests. -/
inductive Ev
  | set_flags (f : Flags)
  | insert_flags (f : Flags)
  | wake_dispatch
  | release_pool
  | deposit_write (n : Nat)
  | deposit_read (n : Nat)
  | want_shutdown_ev
  | shutdown_filters_ev
deriving DecidableEq, Repr

/-- Effect of one event on the shared flag word. -/
def applyEv (f : Flags) : Ev → Flags
  | .set_flags g => g
  | .insert_flags g => f.union g
  | _ => f

/-- Shared write-side state visible to `WriteContext`: the flag word and the
staged write buffer slot. -/
structure WSt where
  flags : Flags
  write_buf : Option Nat
deriving DecidableEq, Repr

/-- Result of `WriteContext::release_write_buf`: final state, event trace,
and the `Result` value (`ok = true` encodes `Ok(())`). -/
structure RWOut where
  st : WSt
  events : List Ev
  ok : Bool
deriving DecidableEq, Repr

/-- `WriteContext::release_write_buf` (src/ntex-io/src/tasks.rs lines
100-127). `write_hw` is `pool.write_params_high()`; `buf` is the released
buffer's length; `write_hw <<< 1` is written `2 * write_hw`. -/
def release_write_buf (write_hw : Nat) (st : WSt) (buf : Nat) : RWOut :=
  let flags := st.flags
  if buf = 0 then
    if flags.wr_wait || flags.wr_backpressure then
      let flags2 : Flags := { flags with wr_wait := false, wr_backpressure := false }
      let evs := [Ev.release_pool, Ev.set_flags flags2, Ev.wake_dispatch]
      let evs := if flags2.io_filters then evs ++ [Ev.shutdown_filters_ev] else evs
      ⟨⟨flags2, st.write_buf⟩, evs, true⟩
    else
      let evs := [Ev.release_pool]
      let evs := if flags.io_filters then evs ++ [Ev.shutdown_filters_ev] else evs
      ⟨⟨flags, st.write_buf⟩, evs, true⟩
  else
    if flags.wr_backpressure && buf < 2 * write_hw then
      let flags2 : Flags := { flags with wr_backpressure := false }
      let evs := [Ev.set_flags flags2, Ev.wake_dispatch, Ev.deposit_write buf]
      let evs := if flags2.io_filters then evs ++ [Ev.shutdown_filters_ev] else evs
      ⟨⟨flags2, some buf⟩, evs, true⟩
    else
      let evs := [Ev.deposit_write buf]
      let evs := if flags.io_filters then evs ++ [Ev.shutdown_filters_ev] else evs
      ⟨⟨flags, some buf⟩, evs, true⟩

/-- Checks that at every `wake_dispatch` event in the trace the flag word in
force at that point (initial word updated by the preceding flag stores) has
WR_BACKPRESSURE cleared. -/
def wakeClearOk (f : Flags) : List Ev → Bool
  | [] => true
  | e :: rest =>
    (if e = Ev.wake_dispatch then !f.wr_backpressure else true)
      && wakeClearOk (applyEv f e) rest

/-- Shared read-side state visible to `ReadContext`: the flag word and the
staged decoded read buffer slot. -/
structure RSt where
  flags : Flags
  read_buf : Option Nat
deriving DecidableEq, Repr

/-- Result of `ReadContext::release_read_buf`: final state and event trace. -/
structure RROut where
  st : RSt
  events : List Ev
deriving DecidableEq, Repr

/-- `ReadContext::release_read_buf` (src/ntex-io/src/tasks.rs lines 34-73).
`read_hw` is `pool.read_params().high`; `buf` is the released source buffer
length. The filter chain call `filter.release_read_buf(buf, &mut dst, nbytes)`
is external: `filterDst` is the value left in `dst` by the chain (the chain
received the staged `read_buf`, which is taken) and `filterRes` its result;
the code recomputes `nbytes` as `result.unwrap_or(0)`. -/
def release_read_buf (read_hw : Nat) (st : RSt) (buf : Nat)
    (filterDst : Option Nat) (filterRes : Except ErrKind Nat) : RROut :=
  if buf = 0 then
    let evs := if st.flags.io_filters
      then [Ev.release_pool, Ev.shutdown_filters_ev] else [Ev.release_pool]
    ⟨st, evs⟩
  else
    let nbytes := match filterRes with
      | .ok i => i
      | .error _ => 0
    let step1 : Flags × List Ev × Option Nat :=
      match filterDst with
      | some d =>
        if 0 < nbytes then
          if read_hw < d then
            (st.flags.union maskRdReadyFull,
             [Ev.insert_flags maskRdReadyFull, Ev.wake_dispatch, Ev.deposit_read d],
             some d)
          else
            (st.flags.union maskRdReady,
             [Ev.insert_flags maskRdReady, Ev.wake_dispatch, Ev.deposit_read d],
             some d)
        else (st.flags, [Ev.deposit_read d], some d)
      | none =>
        if 0 < nbytes then
          (st.flags.union maskRdReady,
           [Ev.wake_dispatch, Ev.insert_flags maskRdReady], none)
        else (st.flags, [], none)
    let step2 : Flags × List Ev :=
      match filterRes with
      | .error _ =>
        (step1.1.union maskRdReady,
         step1.2.1 ++ [Ev.wake_dispatch, Ev.insert_flags maskRdReady, Ev.want_shutdown_ev])
      | .ok _ => (step1.1, step1.2.1)
    let evs := if step2.1.io_filters
      then step2.2 ++ [Ev.shutdown_filters_ev] else step2.2
    ⟨⟨step2.1, step1.2.2⟩, evs⟩

deriving instance DecidableEq for Except

/-- Result of `TlsClientFilter::release_read_buf`: the filter's staged read
buffer after the call, and the returned `io::Result<usize>`. -/
structure TlsRROut where
  read_buf : Option Nat
  result : Except ErrKind Nat
deriving DecidableEq, Repr

/-- `TlsClientFilter::release_read_buf` (src/ntex-tls/src/rustls/client.rs
lines 99-165). When the rustls session is still handshaking the source is
re-deposited into `inner.read_buf` and `Ok(1)` returned; the non-handshaking
branch is driven entirely by the external rustls session and the inner
filter, and is abstracted as `elseOut`, the outcome of that branch. -/
def TlsClientFilter.release_read_buf (handshaking : Bool) (src : Nat)
    (elseOut : TlsRROut) : TlsRROut :=
  if handshaking then ⟨some src, Except.ok 1⟩ else elseOut

/-- The `HttpProtocol` query answer ({Http1, Http2}). -/
inductive HttpProtocol
  | http1
  | http2
deriving DecidableEq, Repr

/-- Model of `std::any::TypeId` keys used by `query`. -/
inductive TypeIdM
  | httpProtocol
  | otherId (n : Nat)
deriving DecidableEq, Repr

/-- Model of a boxed `Any` query answer. -/
inductive QueryAns
  | proto (p : HttpProtocol)
  | otherAns (n : Nat)
deriving DecidableEq, Repr

/-- `protos.windows(2).any(|w| w == b"h2")`: some contiguous two-byte window
of the protocol bytes equals `h2` (bytes 104, 50). -/
def hasH2Window : List Nat → Bool
  | a :: b :: rest => (a == 104 && b == 50) || hasH2Window (b :: rest)
  | _ => false

/-- `TlsClientFilter::query` (src/ntex-tls/src/rustls/client.rs lines 27-47).
`alpn` is `session.alpn_protocol()` (the negotiated protocol bytes, if any);
`innerQuery` is the inner filter's `query`. -/
def TlsClientFilter.query (alpn : Option (List Nat))
    (innerQuery : TypeIdM → Option QueryAns) (id : TypeIdM) : Option QueryAns :=
  if id = TypeIdM.httpProtocol then
    let h2 := (alpn.map hasH2Window).getD false
    some (QueryAns.proto (if h2 then HttpProtocol.http2 else HttpProtocol.http1))
  else innerQuery id

/-- `WriteStatus` values returned by `poll_write_ready`, plus `Pending`
(src/ntex-io/src/lib.rs); `Millis` delays are modelled as `Nat`. -/
inductive PollWS
  | pendingWS
  | ready
  | timeout (d : Nat)
  | shutdownWS (d : Nat)
  | terminate
deriving DecidableEq, Repr

/-- Sub-state of the write task's shutdown phase (`Shutdown` in
src/ntex-rt/src/asyncstd.rs). -/
inductive ShutdownSub
  | noneSub
  | stopping (count : Nat)
deriving DecidableEq, Repr

/-- `IoWriteState` of the write task (src/ntex-rt/src/asyncstd.rs lines
315-319); `Sleep` delays are modelled by their duration. -/
inductive IoWriteState
  | processing (delay : Option Nat)
  | shutdownState (delay : Nat) (sub : ShutdownSub)
deriving DecidableEq, Repr

/-- How one `WriteTask::poll` dispatch in the Processing state ends. -/
inductive PollAct
  | pendingAct
  | doneAct
  | closedTimedOut
  | closedTerminate
  | repoll
deriving DecidableEq, Repr

/-- One dispatch of `WriteTask::poll` in the `Processing` state
(src/ntex-rt/src/asyncstd.rs lines 351-398). `pws` is the result of
`state.poll_ready(cx)`; `delayElapsed` is whether an armed delay's
`poll_elapsed` is ready; `flushRes` is the `flush_io` outcome in the Ready
arm (`none` = `Pending`). Returns the next `IoWriteState` and the action
taken. -/
def WriteTask.pollProcessing (delay : Option Nat) (pws : PollWS)
    (delayElapsed : Bool) (flushRes : Option Bool) : IoWriteState × PollAct :=
  match pws with
  | .pendingWS => (.processing delay, .pendingAct)
  | .ready =>
    if delay.isSome && delayElapsed then (.processing delay, .closedTimedOut)
    else
      match flushRes with
      | some false => (.processing delay, .doneAct)
      | _ => (.processing delay, .pendingAct)
  | .timeout d => (.processing (some (delay.getD d)), .repoll)
  | .shutdownWS d => (.shutdownState (delay.getD d) .noneSub, .repoll)
  | .terminate => (.processing delay, .closedTerminate)

/-- Result of one transport `poll_write` call. -/
inductive WriteRes
  | pendingW
  | okW (n : Nat)
  | errW (k : ErrKind)
deriving DecidableEq, Repr

/-- How the inner write loop of `flush_io` exits. -/
inductive LoopExit
  | broke (written : Nat)
  | zero (written : Nat)
  | failed (k : ErrKind) (written : Nat)
  | complete (written : Nat)
deriving DecidableEq, Repr

/-- The `while written < len` loop of `flush_io`
(src/ntex-rt/src/asyncstd.rs lines 491-515), consuming successive
`poll_write` results; an exhausted result list behaves like `Pending`. -/
def flushLoop (len : Nat) : Nat → List WriteRes → LoopExit
  | written, [] => if written < len then .broke written else .complete written
  | written, r :: rest =>
    if written < len then
      match r with
      | .pendingW => .broke written
      | .okW n => if n = 0 then .zero written else flushLoop len (written + n) rest
      | .errW k => .failed k written
    else .complete written

/-- Result of the transport's `poll_flush`. -/
inductive FRes
  | fok
  | fpending
  | ferr (k : ErrKind)
deriving DecidableEq, Repr

/-- Observable outcome of `flush_io`: the returned `Poll<bool>` (`none` =
`Pending`), the error the chain was closed with (if any), whether the buffer
was released straight to the pool, and the remaining length re-deposited via
`release_write_buf` (if it was). -/
structure FlushOut where
  result : Option Bool
  closed : Option ErrKind
  pool_released : Bool
  redeposited : Option Nat
deriving DecidableEq, Repr

/-- `flush_io` (src/ntex-rt/src/asyncstd.rs lines 475-548). `buf` is the
buffer obtained from `state.get_write_buf()` (its length), `writes` the
successive transport `poll_write` results, `fr` the `poll_flush` result. -/
def flush_io (buf : Option Nat) (writes : List WriteRes) (fr : FRes) : FlushOut :=
  match buf with
  | none => ⟨some true, none, false, none⟩
  | some len =>
    if len = 0 then ⟨some true, none, false, none⟩
    else
      match flushLoop len 0 writes with
      | .zero _ => ⟨some false, some ErrKind.writeZero, true, none⟩
      | .failed k _ => ⟨some false, some k, true, none⟩
      | .complete w =>
        let base : Option Bool := if w = len then some true else none
        match fr with
        | .fok => ⟨base, none, false, some (len - w)⟩
        | .fpending => ⟨none, none, false, some (len - w)⟩
        | .ferr k => ⟨some false, some k, false, some (len - w)⟩
      | .broke w =>
        match fr with
        | .fok => ⟨none, none, false, some (len - w)⟩
        | .fpending => ⟨none, none, false, some (len - w)⟩
        | .ferr k => ⟨some false, some k, false, some (len - w)⟩

/-- Result of one transport `poll_read` call. -/
inductive RRes
  | pendingR
  | okR (n : Nat)
  | errR (k : ErrKind)
deriving DecidableEq, Repr

/-- Why the write task's shutdown phase closed the connection. -/
inductive CloseCause
  | err (k : ErrKind)
  | eof
  | tooMuch
  | delayExpired
deriving DecidableEq, Repr

/-- How the `Shutdown::Stopping` read-and-discard loop exits. -/
inductive StopExit
  | closedStop (c : CloseCause)
  | pendStop (count : Nat)
deriving DecidableEq, Repr

/-- The read-and-discard loop of the write task's `Shutdown::Stopping`
sub-state (src/ntex-rt/src/asyncstd.rs lines 428-457). `count` is the `u16`
running total of discarded bytes (addition wraps mod 2^16); each `okR n`
reads `n` bytes into the 512-byte scratch buffer. An exhausted result list
behaves like `Pending`. -/
def stoppingLoop : Nat → List RRes → StopExit
  | count, [] => .pendStop count
  | count, r :: rest =>
    match r with
    | .pendingR => .pendStop count
    | .errR k => .closedStop (.err k)
    | .okR n =>
      if n = 0 then .closedStop .eof
      else
        let c := (count + n) % 65536
        if 4096 < c then .closedStop .tooMuch else stoppingLoop c rest

/-- One dispatch of the write task's `Shutdown::Stopping` handling including
the trailing disconnect-delay check (src/ntex-rt/src/asyncstd.rs lines
428-467): `some c` means the connection was closed for cause `c`, `none`
means the task returned `Pending`. -/
def stoppingStep (count : Nat) (rs : List RRes) (delayElapsed : Bool) :
    Option CloseCause :=
  match stoppingLoop count rs with
  | .closedStop c => some c
  | .pendStop _ => if delayElapsed then some .delayExpired else none

/-- `poll_read_buf` (src/ntex-rt/src/asyncstd.rs lines 550-569).
`capRemaining` is `buf.remaining_mut()`; `tr` the transport `poll_read`
result. Returns the `Poll<io::Result<usize>>` (`none` = `Pending`) and
whether the transport was polled at all. -/
def poll_read_buf (capRemaining : Nat) (tr : RRes) :
    (Option (Except ErrKind Nat)) × Bool :=
  if capRemaining = 0 then (some (Except.ok 0), false)
  else
    match tr with
    | .pendingR => (none, true)
    | .okR n => (some (Except.ok n), true)
    | .errR k => (some (Except.error k), true)

/-- What the read pump's inner loop does with one `poll_read_buf` result. -/
inductive ReadAct
  | breakPending
  | breakClose
  | continueRead (newBytes : Nat)
  | breakFull (newBytes : Nat)
  | returnErr (k : ErrKind)
deriving DecidableEq, Repr

/-- One iteration of the `ReadTask` inner read loop
(src/ntex-rt/src/asyncstd.rs lines 266-290): `newBytes` is the running byte
count, `hw` the read high watermark, and the argument the `poll_read_buf`
outcome (`none` = `Pending`). -/
def readLoopStep (newBytes hw : Nat) : Option (Except ErrKind Nat) → ReadAct
  | none => .breakPending
  | some (.ok n) =>
    if n = 0 then .breakClose
    else if newBytes + n ≤ hw then .continueRead (newBytes + n)
    else .breakFull (newBytes + n)
  | some (.error k) => .returnErr k

/-! Theorems. -/

/-- C1 counterexample: with write_hw = 8 and WR_BACKPRESSURE set, releasing a
non-empty buffer of exactly 16 = 2 * write_hw bytes leaves WR_BACKPRESSURE
set even though the remaining length is at most (not greater than) twice the
high watermark: the code clears only on strict `len < 2 * write_hw`, so the
claimed boundary case "remaining ≤ 2 × hw clears" and the claimed iff
"set iff len > 2 * write_hw" both fail at len = 2 * write_hw. -/
theorem release_write_buf_bp_boundary_cex :
    (release_write_buf 8 ⟨⟨false, false, false, true, false⟩, none⟩ 16).st.flags.wr_backpressure
      = true
    ∧ ¬ (2 * 8 < 16) := by
  exact ⟨rfl, by decide⟩

/-- C1 (amended): for every `release_write_buf` call with a non-empty buffer
while WR_BACKPRESSURE is set, the flag is cleared exactly when the remaining
buffer length is strictly less than two times the write high watermark;
equivalently, after the mutation WR_BACKPRESSURE is set iff the length is at
least 2 * write_hw. -/
theorem release_write_buf_bp_clear_iff (write_hw : Nat) (st : WSt) (buf : Nat)
    (hbuf : 0 < buf) (hbp : st.flags.wr_backpressure = true) :
    ((release_write_buf write_hw st buf).st.flags.wr_backpressure = false
        ↔ buf < 2 * write_hw)
    ∧ ((release_write_buf write_hw st buf).st.flags.wr_backpressure = true
        ↔ 2 * write_hw ≤ buf) := by
  obtain ⟨⟨a, b, c, d, e⟩, wb⟩ := st
  simp only [release_write_buf]
  have hb0 : ¬ buf = 0 := Nat.pos_iff_ne_zero.mp hbuf
  simp only [if_neg hb0]
  simp only at hbp
  subst hbp
  by_cases hlt : buf < 2 * write_hw
  · simp [hlt]
  · simp [hlt, Nat.le_of_not_lt hlt]

/-- C1 witness: a concrete buffer of 15 bytes with write_hw = 8 clears the
flag. -/
theorem release_write_buf_bp_clear_iff_witness :
    (release_write_buf 8 ⟨⟨false, false, false, true, false⟩, none⟩ 15).st.flags.wr_backpressure
      = false := by
  have h := release_write_buf_bp_clear_iff 8
    ⟨⟨false, false, false, true, false⟩, none⟩ 15 (by decide) rfl
  exact h.1.mpr (by decide)

/-- C3: while the TLS session is handshaking, `release_read_buf` re-deposits
the source buffer into the filter's staged read buffer and returns `Ok(1)` —
never 0 — regardless of what the non-handshaking branch would do, keeping the
return value 0 reserved for EOF. -/
theorem tls_release_read_buf_handshaking (src : Nat) (elseOut : TlsRROut) :
    TlsClientFilter.release_read_buf true src elseOut = ⟨some src, Except.ok 1⟩
    ∧ (TlsClientFilter.release_read_buf true src elseOut).result ≠ Except.ok 0 := by
  exact ⟨rfl, by simp [TlsClientFilter.release_read_buf]⟩

/-- C5 counterexample: in the Processing state with a disconnect delay of 5
already armed, `WriteStatus::Shutdown(7)` transitions to the Shutdown state
keeping the armed delay 5, not the received delay 7 as the claim states. -/
theorem write_task_shutdown_delay_cex :
    WriteTask.pollProcessing (some 5) (PollWS.shutdownWS 7) false none
      = (IoWriteState.shutdownState 5 ShutdownSub.noneSub, PollAct.repoll)
    ∧ (5 : Nat) ≠ 7 := by
  exact ⟨rfl, by decide⟩

/-- C5 (amended): in the Processing state, `Timeout(d)` arms a disconnect
deadline of d when none is armed and keeps an already-armed deadline;
`Shutdown(d)` transitions to the Shutdown state with sub-state None, using
the already-armed deadline when one exists and d otherwise. -/
theorem write_task_timeout_shutdown_arms (d : Nat) (de : Bool) (f : Option Bool) :
    (WriteTask.pollProcessing none (PollWS.timeout d) de f
        = (IoWriteState.processing (some d), PollAct.repoll))
    ∧ (∀ t, WriteTask.pollProcessing (some t) (PollWS.timeout d) de f
        = (IoWriteState.processing (some t), PollAct.repoll))
    ∧ (WriteTask.pollProcessing none (PollWS.shutdownWS d) de f
        = (IoWriteState.shutdownState d ShutdownSub.noneSub, PollAct.repoll))
    ∧ (∀ t, WriteTask.pollProcessing (some t) (PollWS.shutdownWS d) de f
        = (IoWriteState.shutdownState t ShutdownSub.noneSub, PollAct.repoll)) := by
  refine ⟨rfl, fun t => rfl, rfl, fun t => rfl⟩

/-- C6: whenever `flush_io` runs with a non-empty write buffer and the write
loop hits a `poll_write` returning `Ready(Ok(0))`, the buffer is released to
the pool, the chain is closed with a WriteZero error, and `flush_io` returns
`Ready(false)`. -/
theorem flush_io_write_zero (len : Nat) (writes : List WriteRes) (fr : FRes)
    (w : Nat) (hlen : 0 < len) (hzero : flushLoop len 0 writes = LoopExit.zero w) :
    flush_io (some len) writes fr = ⟨some false, some ErrKind.writeZero, true, none⟩ := by
  simp only [flush_io, if_neg (Nat.pos_iff_ne_zero.mp hlen), hzero]

/-- C6 witness: a one-byte buffer whose first `poll_write` returns Ok(0). -/
theorem flush_io_write_zero_witness :
    flush_io (some 1) [WriteRes.okW 0] FRes.fok
      = ⟨some false, some ErrKind.writeZero, true, none⟩ := by
  exact flush_io_write_zero 1 [WriteRes.okW 0] FRes.fok 0 (by decide) (by decide)

/-- C10: with no remaining mutable capacity, `poll_read_buf` returns
`Ready(Ok(0))` without polling the transport; that return value is exactly
what a polled transport at EOF produces, and the read task's loop treats a
zero-byte read as disconnect (close). -/
theorem poll_read_buf_full_buffer :
    (∀ tr, poll_read_buf 0 tr = (some (Except.ok 0), false))
    ∧ (∀ cap tr, (poll_read_buf 0 tr).1 = (poll_read_buf (cap + 1) (RRes.okR 0)).1)
    ∧ (∀ newBytes hw, readLoopStep newBytes hw (some (Except.ok 0)) = ReadAct.breakClose) := by
  refine ⟨fun tr => rfl, fun cap tr => ?_, fun newBytes hw => rfl⟩
  simp [poll_read_buf]

/-- C8: in every execution of `release_write_buf`, at each point where the
dispatch task waker is woken the shared flag word in force (the initial word
updated by the flag stores already emitted) has WR_BACKPRESSURE cleared: the
flag clear precedes the wake. -/
theorem release_write_buf_clear_precedes_wake (write_hw : Nat) (st : WSt) (buf : Nat) :
    wakeClearOk st.flags (release_write_buf write_hw st buf).events = true := by
  obtain ⟨⟨a, b, c, d, e⟩, wb⟩ := st
  by_cases hb : buf = 0 <;> by_cases hlt : buf < 2 * write_hw <;>
    cases c <;> cases d <;> cases e <;>
      simp [release_write_buf, wakeClearOk, applyEv, hb, hlt]

/-- C9: `release_write_buf` is total and always returns `Ok(())`; when called
with an empty buffer it releases the buffer to the memory pool and, if
WR_WAIT or WR_BACKPRESSURE was set, clears both flags and wakes the dispatch
task. -/
theorem release_write_buf_total_empty (write_hw : Nat) (st : WSt) (buf : Nat) :
    (release_write_buf write_hw st buf).ok = true
    ∧ (buf = 0 →
        Ev.release_pool ∈ (release_write_buf write_hw st buf).events
        ∧ ((st.flags.wr_wait || st.flags.wr_backpressure) = true →
            (release_write_buf write_hw st buf).st.flags.wr_wait = false
            ∧ (release_write_buf write_hw st buf).st.flags.wr_backpressure = false
            ∧ Ev.wake_dispatch ∈ (release_write_buf write_hw st buf).events)) := by
  obtain ⟨⟨a, b, c, d, e⟩, wb⟩ := st
  by_cases hb : buf = 0 <;> by_cases hlt : buf < 2 * write_hw <;>
    cases c <;> cases d <;> cases e <;>
      simp [release_write_buf, hb, hlt]

/-- C9 witness: releasing an empty buffer while WR_WAIT is set. -/
theorem release_write_buf_total_empty_witness :
    (release_write_buf 1 ⟨⟨false, false, true, false, false⟩, none⟩ 0).ok = true
    ∧ (release_write_buf 1 ⟨⟨false, false, true, false, false⟩, none⟩ 0).st.flags.wr_wait
      = false := by
  have h := release_write_buf_total_empty 1 ⟨⟨false, false, true, false, false⟩, none⟩ 0
  exact ⟨h.1, ((h.2 rfl).2 (by decide)).1⟩

/-- C2 counterexample: a non-empty source buffer whose chain call succeeds
with `Ok(0)` (zero new decoded bytes, e.g. a TLS record carrying only
handshake data) and leaves a small destination buffer: the code neither sets
RD_READY nor wakes the dispatch task, though the claim requires both. -/
theorem release_read_buf_zero_bytes_cex :
    (release_read_buf 8 ⟨⟨false, false, false, false, false⟩, none⟩ 1 (some 3)
        (Except.ok 0)).st.flags.rd_ready = false
    ∧ Ev.wake_dispatch ∉ (release_read_buf 8 ⟨⟨false, false, false, false, false⟩, none⟩ 1
        (some 3) (Except.ok 0)).events := by
  decide

/-- C2 (amended): for every `release_read_buf` call with a non-empty buffer
where the chain succeeds leaving a destination buffer: when the decoded byte
count is positive, RD_READY is inserted (together with RD_BUF_FULL exactly
when the destination length exceeds read_hw, previously-set bits being
preserved) and the dispatch waker is woken; when the decoded count is zero,
the flags are unchanged and no wake occurs. -/
theorem release_read_buf_flags_wake (read_hw : Nat) (st : RSt) (buf d n : Nat)
    (hbuf : 0 < buf) :
    (0 < n →
      Ev.wake_dispatch ∈ (release_read_buf read_hw st buf (some d) (Except.ok n)).events
      ∧ (release_read_buf read_hw st buf (some d) (Except.ok n)).st.flags.rd_ready = true
      ∧ (release_read_buf read_hw st buf (some d) (Except.ok n)).st.flags.rd_buf_full
          = (st.flags.rd_buf_full || decide (read_hw < d)))
    ∧ ((release_read_buf read_hw st buf (some d) (Except.ok 0)).st.flags = st.flags
      ∧ Ev.wake_dispatch ∉ (release_read_buf read_hw st buf (some d) (Except.ok 0)).events) := by
  obtain ⟨⟨a, b, c, d4, e⟩, rb⟩ := st
  have hb0 : ¬ buf = 0 := Nat.pos_iff_ne_zero.mp hbuf
  constructor
  · intro hn
    by_cases hd : read_hw < d <;> cases e <;>
      simp [release_read_buf, hb0, hn, hd, Flags.union, maskRdReady, maskRdReadyFull]
  · cases e <;> simp [release_read_buf, hb0, Flags.union]

/-- C2 witness: two decoded bytes into a small destination buffer set
RD_READY and wake the dispatcher. -/
theorem release_read_buf_flags_wake_witness :
    Ev.wake_dispatch ∈ (release_read_buf 8 ⟨⟨false, false, false, false, false⟩, none⟩ 1
      (some 3) (Except.ok 2)).events := by
  have h := release_read_buf_flags_wake 8 ⟨⟨false, false, false, false, false⟩, none⟩ 1 3 2
    (by decide)
  exact (h.1 (by decide)).1

/-- Containment of the two-byte window h2 is equivalent to a substring
split. -/
theorem hasH2Window_eq_true_iff (l : List Nat) :
    hasH2Window l = true ↔ ∃ l₁ l₂, l = l₁ ++ 104 :: 50 :: l₂ := by
  induction l with
  | nil =>
    constructor
    · intro h; simp [hasH2Window] at h
    · rintro ⟨l₁, l₂, h⟩; cases l₁ <;> simp at h
  | cons a tail ih =>
    cases tail with
    | nil =>
      constructor
      · intro h; simp [hasH2Window] at h
      · rintro ⟨l₁, l₂, h⟩
        cases l₁ with
        | nil => simp at h
        | cons x xs => cases xs <;> simp at h
    | cons bb rest =>
      constructor
      · intro h
        have h2 : (a = 104 ∧ bb = 50) ∨ hasH2Window (bb :: rest) = true := by
          simpa [hasH2Window, Bool.or_eq_true, Bool.and_eq_true] using h
        rcases h2 with ⟨ha, hbb⟩ | hrec
        · exact ⟨[], rest, by simp [ha, hbb]⟩
        · obtain ⟨l₁, l₂, he⟩ := ih.mp hrec
          exact ⟨a :: l₁, l₂, by simp [he]⟩
      · rintro ⟨l₁, l₂, he⟩
        cases l₁ with
        | nil =>
          simp at he
          obtain ⟨h1, h2, h3⟩ := he
          simp [hasH2Window, h1, h2]
        | cons x xs =>
          simp at he
          have hrec : hasH2Window (bb :: rest) = true :=
            ih.mpr ⟨xs, l₂, he.2⟩
          simp [hasH2Window, hrec]

/-- C4 counterexample: with the negotiated ALPN protocol bytes [104, 50, 99]
(the token h2c), which is not h2, the query still answers Http2 because the
code searches for h2 as a two-byte window of the protocol bytes rather than
comparing the whole protocol. -/
theorem tls_query_h2_substring_cex :
    TlsClientFilter.query (some [104, 50, 99]) (fun _ => none) TypeIdM.httpProtocol
      = some (QueryAns.proto HttpProtocol.http2)
    ∧ ([104, 50, 99] : List Nat) ≠ [104, 50] := by
  exact ⟨by decide, by decide⟩

/-- C4 (amended): querying with the HttpProtocol type id returns Http2 iff
the peer negotiated an ALPN protocol whose bytes contain h2 (bytes 104, 50)
as a contiguous substring, and Http1 otherwise; queries with any other type
id are delegated to the inner filter. -/
theorem tls_query_http2_iff (alpn : Option (List Nat))
    (innerQuery : TypeIdM → Option QueryAns) :
    (TlsClientFilter.query alpn innerQuery TypeIdM.httpProtocol
        = some (QueryAns.proto HttpProtocol.http2)
      ↔ ∃ protos l₁ l₂, alpn = some protos ∧ protos = l₁ ++ 104 :: 50 :: l₂)
    ∧ (∀ n, TlsClientFilter.query alpn innerQuery (TypeIdM.otherId n)
        = innerQuery (TypeIdM.otherId n)) := by
  constructor
  · cases alpn with
    | none => simp [TlsClientFilter.query]
    | some protos =>
      by_cases hh : hasH2Window protos = true
      · simp only [TlsClientFilter.query, if_pos rfl, Option.map_some', Option.getD_some, hh,
          if_true]
        obtain ⟨l₁, l₂, he⟩ := (hasH2Window_eq_true_iff protos).mp hh
        simp only [eq_self_iff_true, true_iff]
        exact ⟨protos, l₁, l₂, rfl, he⟩
      · simp only [TlsClientFilter.query, if_pos rfl, Option.map_some', Option.getD_some, hh,
          if_false]
        constructor
        · intro h; simp at h
        · rintro ⟨protos2, l₁, l₂, hp, he⟩
          have hpe : protos = protos2 := by injection hp
          subst hpe
          exact absurd ((hasH2Window_eq_true_iff protos).mpr ⟨l₁, l₂, he⟩) hh
  · intro n; rfl

/-- Processing a run of positive reads that keeps the discard counter at or
below 4096 advances the counter and continues the loop. -/
theorem stoppingLoop_append_ok (pre : List Nat) :
    ∀ count, (∀ x ∈ pre, 0 < x) → count + pre.sum ≤ 4096 →
    ∀ rs, stoppingLoop count (pre.map RRes.okR ++ rs)
      = stoppingLoop (count + pre.sum) rs := by
  induction pre with
  | nil => intro count _ _ rs; simp
  | cons x pre ih =>
    intro count hpos hle rs
    have hx : 0 < x := hpos x (by simp)
    have hsum : count + (x + pre.sum) ≤ 4096 := by simpa using hle
    have hmod : (count + x) % 65536 = count + x :=
      Nat.mod_eq_of_lt (by omega)
    simp only [List.map_cons, List.cons_append, stoppingLoop]
    rw [if_neg (Nat.pos_iff_ne_zero.mp hx), hmod, if_neg (by omega)]
    simp only [List.append_eq]
    rw [ih (count + x) (fun y hy => hpos y (by simp [hy])) (by omega) rs]
    rw [List.sum_cons]
    congr 1
    omega

/-- C7: after the half-close, the write task's read-and-discard phase closes
the connection at the first of: a transport read error, peer EOF, the
discarded byte count exceeding 4096, or (when the reads leave it pending)
the disconnect delay having elapsed; while none has occurred it stays
pending. `pre` is a run of positive reads keeping the counter within
bounds. -/
theorem shutdown_stopping_behavior (count : Nat) (pre : List Nat) (de : Bool)
    (hpos : ∀ x ∈ pre, 0 < x) (hle : count + pre.sum ≤ 4096) :
    (∀ k post, stoppingStep count (pre.map RRes.okR ++ RRes.errR k :: post) de
        = some (CloseCause.err k))
    ∧ (∀ post, stoppingStep count (pre.map RRes.okR ++ RRes.okR 0 :: post) de
        = some CloseCause.eof)
    ∧ (∀ n post, 0 < n → n ≤ 512 → 4096 < count + pre.sum + n →
        stoppingStep count (pre.map RRes.okR ++ RRes.okR n :: post) de
          = some CloseCause.tooMuch)
    ∧ (∀ post, stoppingStep count (pre.map RRes.okR ++ RRes.pendingR :: post) de
        = if de then some CloseCause.delayExpired else none) := by
  have key := stoppingLoop_append_ok pre count hpos hle
  refine ⟨?_, ?_, ?_, ?_⟩
  · intro k post
    simp [stoppingStep, key, stoppingLoop]
  · intro post
    simp [stoppingStep, key, stoppingLoop]
  · intro n post hn hn512 hbig
    have hmod : (count + pre.sum + n) % 65536 = count + pre.sum + n :=
      Nat.mod_eq_of_lt (by omega)
    have hloop : stoppingLoop (count + pre.sum) (RRes.okR n :: post)
        = StopExit.closedStop CloseCause.tooMuch := by
      simp only [stoppingLoop]
      rw [if_neg (Nat.pos_iff_ne_zero.mp hn), hmod, if_pos (by omega)]
    simp [stoppingStep, key, hloop]
  · intro post
    simp [stoppingStep, key, stoppingLoop]

/-- C7 witness: concrete read sequences exhibiting each closing cause and
the pending case. -/
theorem shutdown_stopping_behavior_witness :
    stoppingStep 0 [RRes.okR 1, RRes.errR ErrKind.other] true
      = some (CloseCause.err ErrKind.other)
    ∧ stoppingStep 0 [RRes.okR 1, RRes.okR 0] true = some CloseCause.eof
    ∧ stoppingStep 0 ((List.replicate 8 (512 : Nat)).map RRes.okR ++ [RRes.okR 1]) true
      = some CloseCause.tooMuch
    ∧ stoppingStep 0 [RRes.okR 1, RRes.pendingR] false = none := by
  have h1 := shutdown_stopping_behavior 0 [1] true (by decide) (by decide)
  have h3 := shutdown_stopping_behavior 0 (List.replicate 8 (512 : Nat)) true
    (by decide) (by decide)
  have h4 := shutdown_stopping_behavior 0 [1] false (by decide) (by decide)
  refine ⟨h1.1 ErrKind.other [], h1.2.1 [], ?_, ?_⟩
  · exact h3.2.2.1 1 [] (by decide) (by decide) (by decide)
  · simpa using h4.2.2.2 []

end Ntex
